import Mathlib

/-!
Shallow embedding of the OBD2 Data Visualizer (src/visualizer.py).

The program's only data-processing core is `load_data` (lines 80-118): it reads a
semicolon-separated CSV with pandas, detects one of two recognized layouts
(long format with columns SECONDS/PID/VALUE, or wide format with a time(ms)
column), and normalizes either into a single time-indexed table, forward- and
backward-filled.  The surrounding app code (lines 164-314) is UI glue; the two
pieces with observable logic are the unrecognized-format error branch
(lines 169-172), the session-state initialization (lines 178-188) and the
normalize rescaling branch (lines 268-271).  All of those are embedded below.

Modelling conventions:
  * Machine floats are modelled as exact rationals (ℚ); NaN / missing is
    `Option.none`.  pandas recognizes empty fields and NA tokens as missing at
    parse time; such cells are `RawCell.empty`.
  * A CSV cell is classified by its numeric interpretation: `RawCell.num q`
    stands for a token that Python parses as the number `q`, `RawCell.text s`
    for a token that does not parse as a number (the placeholder "-" is
    `RawCell.text "-"`), and `RawCell.empty` for an empty / NA field.
  * `pd.read_csv(file, sep=';', on_bad_lines='skip')` (line 82): the expected
    row width is the header's width or, when the first data line is longer,
    that line's width (index-column inference: the excess leading fields of
    every retained line are consumed as the read index, which the program
    never uses downstream).  A data line wider than the expected width is a
    "bad line" and is skipped; a narrower one is retained and right-padded
    with missing cells.  (Mangling of duplicate header names is not modelled;
    no claim depends on it.)
  * Raised Python exceptions are the distinguished result `LoadResult.error`;
    the `return None` of line 118 is `LoadResult.unrecognized`.
-/

set_option maxRecDepth 8000

/-- One raw CSV field, classified by how Python/pandas interprets its token:
a numeric token (with its value), a non-numeric text token (with its text), or
an empty/NA field. -/
inductive RawCell
  | empty
  | num (q : ℚ)
  | text (s : String)
deriving DecidableEq

/-- An uploaded semicolon-separated file after tokenization: the header line's
fields (as written, possibly with surrounding whitespace) and the data lines,
each a list of fields. -/
structure Csv where
  header : List String
  body : List (List RawCell)
deriving DecidableEq

/-- A pandas DataFrame as produced by `pd.read_csv`: column names plus rows of
cells (every row has exactly `header.length` cells by construction). -/
structure Df where
  header : List String
  rows : List (List RawCell)
deriving DecidableEq

/-- Right-pad a short data row with missing cells up to the header width,
as the pandas CSV reader does for rows with fewer fields than the header. -/
def padRow (n : Nat) (r : List RawCell) : List RawCell :=
  r ++ List.replicate (n - r.length) RawCell.empty

/-- The row width the pandas CSV reader expects: the header's width, unless
the first data line is wider — then that line's width (it is never a bad
line; its excess leading fields trigger index-column inference instead). -/
def expectedWidth (f : Csv) : Nat :=
  match f.body with
  | [] => f.header.length
  | r :: _ => max f.header.length r.length

/-- `pd.read_csv(file, sep=';', on_bad_lines='skip')` (source line 82): rows
wider than the expected width are skipped, narrower rows are right-padded
with missing cells, and the leading excess fields (present exactly when the
first data line is wider than the header) are consumed as the read index,
which `load_data` never uses — so they are dropped here, leaving every
retained row with the header's width. -/
def readCsv (f : Csv) : Df :=
  { header := f.header
    rows := f.body.filterMap fun r =>
      if expectedWidth f < r.length then none
      else some ((padRow (expectedWidth f) r).drop (expectedWidth f - f.header.length)) }

/-- Python `str.strip()` on a column name: drop leading and trailing
whitespace characters.  (Defined on the character list so that it reduces in
the kernel; `String.trim` is byte-position based and does not.) -/
def pyStrip (s : String) : String :=
  ⟨((s.data.dropWhile Char.isWhitespace).reverse.dropWhile Char.isWhitespace).reverse⟩

/-- `df.columns = df.columns.str.strip()` (source line 83) applied to the
freshly read file. -/
def strippedDf (f : Csv) : Df :=
  { header := (readCsv f).header.map pyStrip, rows := (readCsv f).rows }

/-- The cell of row `r` in the column named `name` (first occurrence of the
name in the header); a missing column reads as a missing cell. -/
def cellAt (df : Df) (name : String) (r : List RawCell) : RawCell :=
  match df.header.findIdx? (fun c => c == name) with
  | some i => r.getD i RawCell.empty
  | none => RawCell.empty

/-- The whole column of `df` named `name` (empty if the name is absent). -/
def Df.col (df : Df) (name : String) : List RawCell :=
  df.rows.map (cellAt df name)

/-- Whether a cell holds a non-numeric text token. -/
def cellIsText : RawCell → Bool
  | .text _ => true
  | _ => false

/-- Numeric coercion of one cell, as in `pd.to_numeric(col, errors='coerce')`
after `df.replace('-', np.nan)` (source lines 99, 106): a numeric token keeps
its value, everything else (empty field, the "-" placeholder, any other text)
becomes missing. -/
def toNumeric : RawCell → Option ℚ
  | .num q => some q
  | _ => none

/-- The PID grouping key of a cell: missing fields give no key (the row is
dropped by the groupby), text tokens name the sensor, and a numeric token is
rendered as its decimal string (pandas would use the number itself as the
column label; no claim involves numeric PIDs). -/
def pidOf : RawCell → Option String
  | .empty => none
  | .text s => some s
  | .num q => some (toString q)

/-- `df['time(ms)'] / 1000.0` on one cell (source line 95): the row key in
seconds, missing when the field is empty. -/
def wideSec : RawCell → Option ℚ
  | .num q => some (q / 1000)
  | _ => none

/-- The canonical table: the sorted row index (`SECONDS`, a list of keys) and
one entry per column, holding the column name and its cells aligned with the
index. -/
structure Table where
  keys : List ℚ
  cols : List (String × List (Option ℚ))
deriving DecidableEq

/-- Forward fill with an explicit carry: each missing cell takes the nearest
preceding present value (or the carry before the list). -/
def ffillGo : Option ℚ → List (Option ℚ) → List (Option ℚ)
  | _, [] => []
  | _, some v :: cs => some v :: ffillGo (some v) cs
  | last, none :: cs => last :: ffillGo last cs

/-- `Series.ffill()` on one column. -/
def ffillCol (l : List (Option ℚ)) : List (Option ℚ) :=
  ffillGo none l

/-- `Series.bfill()` on one column: forward fill of the reversed column. -/
def bfillCol (l : List (Option ℚ)) : List (Option ℚ) :=
  (ffillGo none l.reverse).reverse

/-- `df.ffill().bfill()` (source lines 89 and 115): fill every column forward
then backward. -/
def fillTable (t : Table) : Table :=
  { keys := t.keys, cols := t.cols.map fun c => (c.1, bfillCol (ffillCol c.2)) }

/-- Drop every column whose cells are all missing, as `dropna(axis=1,
how='all')` (source line 112) and the identical final dropna step inside
`pivot_table(dropna=True)` do. -/
def dropAllNoneCols (t : Table) : Table :=
  { keys := t.keys, cols := t.cols.filter fun c => c.2.any fun x => x.isSome }

/-- Whether the table has a column of the given name. -/
def Table.hasCol (t : Table) (name : String) : Bool :=
  t.cols.any fun c => c.1 == name

/-- The cell of the table at row key `k` and column `name` (missing when the
column or the key is absent). -/
def Table.cell (t : Table) (k : ℚ) (name : String) : Option ℚ :=
  match t.cols.find? (fun c => c.1 == name) with
  | some c =>
    match (t.keys.zip c.2).find? (fun kv => kv.1 == k) with
    | some kv => kv.2
    | none => none
  | none => none

/-- Whether no cell of the table is missing. -/
def Table.noMissing (t : Table) : Bool :=
  t.cols.all fun c => c.2.all fun x => x.isSome

/-- The outcome of `load_data` (source lines 80-118): a canonical table, the
`None` of line 118 for an unrecognized layout, or a raised Python exception. -/
inductive LoadResult
  | table (t : Table)
  | unrecognized
  | error
deriving DecidableEq

/-- The table cell of a load outcome, when a table was produced. -/
def LoadResult.cell? (r : LoadResult) (k : ℚ) (name : String) : Option ℚ :=
  match r with
  | .table t => t.cell k name
  | _ => none

/-- The row keys of a load outcome, when a table was produced. -/
def LoadResult.keysOf : LoadResult → List ℚ
  | .table t => t.keys
  | _ => []

/-- Pandas NaN-skipping mean of a group: missing when the group has no present
value, otherwise the arithmetic mean of the present values. -/
def meanOpt (vs : List ℚ) : Option ℚ :=
  if vs.isEmpty then none else some (vs.sum / (vs.length : ℚ))

/-- One long-format row reduced to its three relevant fields: the SECONDS
grouping key, the PID grouping key and the VALUE measurement, each possibly
missing. -/
structure LongRow where
  sec : Option ℚ
  pid : Option String
  val : Option ℚ
deriving DecidableEq

/-- The long-format view of the frame: SECONDS, PID and VALUE of every row.
(Under `longGuardOk` the SECONDS and VALUE columns hold no text tokens, so
`toNumeric` coincides with how pandas reads them.) -/
def longRows (df : Df) : List LongRow :=
  df.rows.map fun r =>
    { sec := toNumeric (cellAt df "SECONDS" r)
      pid := pidOf (cellAt df "PID" r)
      val := toNumeric (cellAt df "VALUE" r) }

/-- The VALUEs of all rows sharing the `(sec, pid)` group, skipping missing
measurements (pandas mean skips NaN). -/
def dupValues (trs : List LongRow) (sec : ℚ) (pid : String) : List ℚ :=
  trs.filterMap fun tr =>
    if tr.sec = some sec ∧ tr.pid = some pid then tr.val else none

/-- One cell of `df.pivot_table(index='SECONDS', columns='PID', values='VALUE',
aggfunc='mean')` (source line 87): the mean of the group's present VALUEs. -/
def pivotCell (trs : List LongRow) (sec : ℚ) (pid : String) : Option ℚ :=
  meanOpt (dupValues trs sec pid)

/-- The SECONDS keys surviving the pivot: `pivot_table(dropna=True)` groups
with both grouping keys present and drops aggregated groups that are entirely
NaN, so a key appears exactly when some row has this SECONDS together with a
present PID and a present VALUE. -/
def keySource (trs : List LongRow) : List ℚ :=
  trs.filterMap fun tr =>
    if tr.pid.isSome ∧ tr.val.isSome then tr.sec else none

/-- The pivot's row index: the distinct surviving SECONDS keys in ascending
order (`pivot_table` sorts; the `sort_index()` of line 88 is then a no-op). -/
def longKeys (trs : List LongRow) : List ℚ :=
  List.insertionSort (fun a b => a ≤ b) (keySource trs).dedup

/-- The PID names surviving the pivot, by the same dropna reasoning. -/
def colSource (trs : List LongRow) : List String :=
  trs.filterMap fun tr =>
    if tr.sec.isSome ∧ tr.val.isSome then tr.pid else none

/-- The pivot's distinct column names.  (pandas additionally sorts the column
labels; column order is unobservable through `Table.hasCol` / `Table.cell`,
so first-appearance order is kept.) -/
def longCols (trs : List LongRow) : List String :=
  (colSource trs).dedup

/-- The pivoted long-format table before filling (source lines 87-88). -/
def longTablePre (trs : List LongRow) : Table :=
  { keys := longKeys trs
    cols := (longCols trs).map fun p => (p, (longKeys trs).map fun k => pivotCell trs k p) }

/-- The long-format branch of `load_data` (source lines 86-90): pivot with
mean aggregation, sort the index, drop all-missing columns (done inside
`pivot_table(dropna=True)`), forward fill, backward fill. -/
def loadLong (df : Df) : Table :=
  fillTable (dropAllNoneCols (longTablePre (longRows df)))

/-- The sensor columns of a wide-format frame: every header name except the
dropped `time(ms)` and the freshly assigned `SECONDS` (source lines 95-96,
102). -/
def sensorNames (h : List String) : List String :=
  h.filter fun c => !(c == "time(ms)" || c == "SECONDS")

/-- The computed seconds key of every row that has one (rows whose `time(ms)`
field is empty get no key and are dropped by the groupby). -/
def wideKeySource (df : Df) : List ℚ :=
  df.rows.filterMap fun r => wideSec (cellAt df "time(ms)" r)

/-- The wide branch's row index: distinct seconds keys in ascending order
(`groupby('SECONDS').mean().sort_index()`, source line 109). -/
def wideKeys (df : Df) : List ℚ :=
  List.insertionSort (fun a b => a ≤ b) (wideKeySource df).dedup

/-- One cell of the grouped wide table: the mean of the numeric coercions of
the sensor's cells over all rows sharing the seconds key, skipping missing
values (source lines 99-109). -/
def wideCell (df : Df) (name : String) (k : ℚ) : Option ℚ :=
  meanOpt (df.rows.filterMap fun r =>
    if wideSec (cellAt df "time(ms)" r) = some k then toNumeric (cellAt df name r) else none)

/-- The grouped wide-format table before the column drop and the fill. -/
def wideTablePre (df : Df) : Table :=
  { keys := wideKeys df
    cols := (sensorNames df.header).map fun c => (c, (wideKeys df).map fun k => wideCell df c k) }

/-- The wide-format branch of `load_data` (source lines 93-116): seconds key,
"-" to missing, numeric coercion, group-by-mean sorted by key, drop
all-missing columns, forward fill, backward fill. -/
def loadWide (df : Df) : Table :=
  fillTable (dropAllNoneCols (wideTablePre df))

/-- Long-format detection (source line 86): SECONDS, PID and VALUE all
present among the stripped column names. -/
def isLong (df : Df) : Bool :=
  df.header.contains "SECONDS" && df.header.contains "PID" && df.header.contains "VALUE"

/-- Wide-format detection (source line 93): a `time(ms)` column is present. -/
def isWide (df : Df) : Bool :=
  df.header.contains "time(ms)"

/-- Whether the long branch runs without raising.  A text token in VALUE makes
the column object dtype and `pivot_table(aggfunc='mean')` raises TypeError; a
text token in SECONDS yields an object index whose sort can likewise raise.
Both are modelled as the error outcome. -/
def longGuardOk (df : Df) : Bool :=
  !((df.col "SECONDS").any cellIsText || (df.col "VALUE").any cellIsText)

/-- Whether the wide branch runs without raising: a text token anywhere in
`time(ms)` (including the "-" placeholder) makes the column object dtype, and
`df['time(ms)'] / 1000.0` (source line 95, which runs before the
`replace('-', np.nan)` of line 99) raises TypeError on the string cell. -/
def wideGuardOk (df : Df) : Bool :=
  !((df.col "time(ms)").any cellIsText)

/-- `load_data` (source lines 80-118): read and strip, then dispatch on the
detected format, long format checked first. -/
def load_data (f : Csv) : LoadResult :=
  if isLong (strippedDf f) then
    if longGuardOk (strippedDf f) then LoadResult.table (loadLong (strippedDf f))
    else LoadResult.error
  else if isWide (strippedDf f) then
    if wideGuardOk (strippedDf f) then LoadResult.table (loadWide (strippedDf f))
    else LoadResult.error
  else LoadResult.unrecognized

/-- The user-facing message of the `st.error` call (source lines 170-172). -/
def formatErrorMsg : String :=
  "Error: The CSV file format is not recognized. Expected columns: (SECONDS; PID; VALUE) OR (time(ms); ...sensors)."

/-- The session's sensor-selection dictionary after a successful load (source
lines 178-188): existing entries are kept as they are, and any column of the
new table not yet present is added unselected. -/
def initSensorStates (prior : List (String × Bool)) (metrics : List String) :
    List (String × Bool) :=
  prior ++ (metrics.filter fun m => !(prior.any fun p => p.1 == m)).map fun m => (m, false)

/-- The upload-handling step of the main app (source lines 166-188): on an
unrecognized file the format error is rendered and the selection state is left
untouched; on a successful load the state is synchronized with the table's
columns; a raised exception renders no format message and touches no state. -/
def appUpload (prior : List (String × Bool)) (r : LoadResult) :
    List (String × Bool) × Option String :=
  match r with
  | .table t => (initSensorStates prior (t.cols.map Prod.fst), none)
  | .unrecognized => (prior, some formatErrorMsg)
  | .error => (prior, none)

/-- The normalize branch on one selected column (source lines 268-271):
rescale by `(x - min) / denom` where `denom` is `max - min` with a zero
replaced by 1. -/
def normalizeCol (xs : List ℚ) : List ℚ :=
  match xs with
  | [] => []
  | x :: rest =>
    (x :: rest).map fun v =>
      (v - List.foldl min x rest) /
        (if List.foldl max x rest - List.foldl min x rest = 0 then 1
         else List.foldl max x rest - List.foldl min x rest)

/-- The long-format example of the spec: rows (0, RPM, 800), (0, RPM, 820),
(1, RPM, 900). -/
def exampleLong : Csv :=
  { header := ["SECONDS", "PID", "VALUE"]
    body := [[RawCell.num 0, RawCell.text "RPM", RawCell.num 800],
             [RawCell.num 0, RawCell.text "RPM", RawCell.num 820],
             [RawCell.num 1, RawCell.text "RPM", RawCell.num 900]] }

/-- The wide-format example of the spec: (time(ms)=1000, Speed=-, RPM=800)
then (time(ms)=2000, Speed=45, RPM=820). -/
def exampleWide : Csv :=
  { header := ["time(ms)", "Speed", "RPM"]
    body := [[RawCell.num 1000, RawCell.text "-", RawCell.num 800],
             [RawCell.num 2000, RawCell.num 45, RawCell.num 820]] }

/-- The canonical table the wide example produces. -/
def exampleWideTable : Table :=
  { keys := [1, 2]
    cols := [("Speed", [some 45, some 45]), ("RPM", [some 800, some 820])] }

/-- A wide-format file whose `time(ms)` column holds the text placeholder in
one row: the seconds division raises on it. -/
def exampleBadWide : Csv :=
  { header := ["time(ms)", "Speed"]
    body := [[RawCell.text "-", RawCell.num 45]] }

/-- A file whose only data line has fewer fields than the header. -/
def exampleShortRow : Csv :=
  { header := ["time(ms)", "A"]
    body := [[RawCell.num 1000]] }

/-- A wide-format file with one row lacking its `time(ms)` field (and carrying
sensor value 5) and one complete row with key 2 and sensor value 7. -/
def exampleNoKey : Csv :=
  { header := ["time(ms)", "X"]
    body := [[RawCell.empty, RawCell.num 5],
             [RawCell.num 2000, RawCell.num 7]] }

/-- A file carrying both the long-format marker columns and the wide-format
marker column. -/
def exampleBothMarkers : Csv :=
  { header := ["SECONDS", "PID", "VALUE", "time(ms)"]
    body := [[RawCell.num 0, RawCell.text "RPM", RawCell.num 800, RawCell.num 5000]] }

/-- A file matching neither recognized shape. -/
def exampleUnrecognized : Csv :=
  { header := ["foo", "bar"]
    body := [[RawCell.num 1, RawCell.num 2]] }

/-- A file whose only data line has one more field than the header: pandas
retains it, consuming the leading field 5 as the read index. -/
def exampleLongRow : Csv :=
  { header := ["time(ms)", "A"]
    body := [[RawCell.num 5, RawCell.num 1000, RawCell.num 7]] }

/-- A wide-format file with one sensor column holding only non-numeric status
tokens. -/
def exampleTextCol : Csv :=
  { header := ["time(ms)", "Status", "RPM"]
    body := [[RawCell.num 1000, RawCell.text "Closed Loop", RawCell.num 800],
             [RawCell.num 2000, RawCell.text "Open Loop", RawCell.num 820]] }

/-- Cell refinement: whatever was present before a fill step is still present,
with the same value, after it. -/
def Refines (a b : Option ℚ) : Prop :=
  ∀ v, a = some v → b = some v

/-- The value carried past a column prefix by a forward fill. -/
def carry (last : Option ℚ) (l : List (Option ℚ)) : Option ℚ :=
  l.foldl (fun acc c => match c with | some v => some v | none => acc) last

example : load_data exampleWide = LoadResult.table exampleWideTable := by
  with_unfolding_all decide
example : (load_data exampleLong).cell? 0 "RPM" = some 810 := by
  with_unfolding_all decide
example : (load_data exampleLong).cell? 1 "RPM" = some 900 := by
  with_unfolding_all decide
example : load_data exampleBadWide = LoadResult.error := by
  with_unfolding_all decide
example : (load_data exampleNoKey).keysOf = [2] := by
  with_unfolding_all decide
example : (load_data exampleNoKey).cell? 2 "X" = some 7 := by
  with_unfolding_all decide
example : load_data exampleUnrecognized = LoadResult.unrecognized := by
  with_unfolding_all decide
example : (readCsv exampleShortRow).rows = [[RawCell.num 1000, RawCell.empty]] := by
  with_unfolding_all decide
example : (load_data exampleShortRow).keysOf = [1] := by
  with_unfolding_all decide

theorem ffillGo_some_isSome (l : List (Option ℚ)) :
    ∀ (v : ℚ), ∀ x ∈ ffillGo (some v) l, x.isSome = true := by
  induction l with
  | nil => intro v x hx; simp [ffillGo] at hx
  | cons c cs ih =>
    intro v x hx
    cases c with
    | some w =>
      simp only [ffillGo, List.mem_cons] at hx
      rcases hx with h | h
      · subst h; rfl
      · exact ih w x h
    | none =>
      simp only [ffillGo, List.mem_cons] at hx
      rcases hx with h | h
      · subst h; rfl
      · exact ih v x h

theorem ffillGo_allSome (l : List (Option ℚ)) :
    ∀ last, (∀ x ∈ l, x.isSome = true) → ∀ x ∈ ffillGo last l, x.isSome = true := by
  induction l with
  | nil => intro last _ x hx; simp [ffillGo] at hx
  | cons c cs ih =>
    intro last hall x hx
    have hc : c.isSome = true := hall c (List.mem_cons_self c cs)
    obtain ⟨w, rfl⟩ := Option.isSome_iff_exists.mp hc
    simp only [ffillGo, List.mem_cons] at hx
    rcases hx with h | h
    · subst h; rfl
    · exact ffillGo_some_isSome cs w x h

theorem ffillGo_append (l₁ l₂ : List (Option ℚ)) :
    ∀ last, ffillGo last (l₁ ++ l₂) = ffillGo last l₁ ++ ffillGo (carry last l₁) l₂ := by
  induction l₁ with
  | nil => intro last; simp [ffillGo, carry]
  | cons c cs ih =>
    intro last
    cases c with
    | some v => simp [ffillGo, carry, ih]
    | none => simp [ffillGo, carry, ih]

theorem fill_allSome (l : List (Option ℚ)) (h : ∃ x ∈ l, x.isSome = true) :
    ∀ y ∈ bfillCol (ffillCol l), y.isSome = true := by
  obtain ⟨x, hx, hxs⟩ := h
  obtain ⟨v, rfl⟩ := Option.isSome_iff_exists.mp hxs
  obtain ⟨s, u, rfl⟩ := List.append_of_mem hx
  intro y hy
  rw [bfillCol, ffillCol, ffillGo_append] at hy
  have hmid : ffillGo (carry none s) (some v :: u) =
      some v :: ffillGo (some v) u := rfl
  rw [hmid] at hy
  rw [List.mem_reverse] at hy
  rw [show (ffillGo none s ++ some v :: ffillGo (some v) u).reverse =
      (ffillGo (some v) u).reverse ++ some v :: (ffillGo none s).reverse by simp] at hy
  rw [ffillGo_append] at hy
  have hmid2 : ffillGo (carry none (ffillGo (some v) u).reverse)
      (some v :: (ffillGo none s).reverse) =
      some v :: ffillGo (some v) (ffillGo none s).reverse := rfl
  rw [hmid2] at hy
  rcases List.mem_append.mp hy with h1 | h1
  · refine ffillGo_allSome _ none ?_ y h1
    intro z hz
    rw [List.mem_reverse] at hz
    exact ffillGo_some_isSome u v z hz
  · rcases List.mem_cons.mp h1 with h2 | h2
    · subst h2; rfl
    · exact ffillGo_some_isSome _ v y h2

theorem ffillGo_refines (l : List (Option ℚ)) :
    ∀ last, List.Forall₂ Refines l (ffillGo last l) := by
  induction l with
  | nil => intro last; exact List.Forall₂.nil
  | cons c cs ih =>
    intro last
    cases c with
    | some v => exact List.Forall₂.cons (fun w hw => hw) (ih (some v))
    | none => exact List.Forall₂.cons (fun w hw => by cases hw) (ih last)

theorem forall₂_refines_trans :
    ∀ {l₁ l₂ l₃ : List (Option ℚ)}, List.Forall₂ Refines l₁ l₂ →
      List.Forall₂ Refines l₂ l₃ → List.Forall₂ Refines l₁ l₃ := by
  intro l₁ l₂ l₃ h12
  induction h12 generalizing l₃ with
  | nil => intro h; cases h; exact List.Forall₂.nil
  | cons hr _ ih =>
    intro h
    cases h with
    | cons hr2 hl2 => exact List.Forall₂.cons (fun v hv => hr2 v (hr v hv)) (ih hl2)

theorem fill_refines (l : List (Option ℚ)) :
    List.Forall₂ Refines l (bfillCol (ffillCol l)) := by
  refine forall₂_refines_trans (ffillGo_refines l none) ?_
  have h := List.rel_reverse (ffillGo_refines (ffillCol l).reverse none)
  rw [List.reverse_reverse] at h
  exact h

theorem forall₂_refines_getElem? :
    ∀ {l₁ l₂ : List (Option ℚ)}, List.Forall₂ Refines l₁ l₂ →
      ∀ (i : Nat) (a : Option ℚ), l₁[i]? = some a →
        ∃ b, l₂[i]? = some b ∧ Refines a b := by
  intro l₁ l₂ h
  induction h with
  | nil => intro i a ha; simp at ha
  | cons hr _ ih =>
    intro i a ha
    cases i with
    | zero =>
      simp only [List.getElem?_cons_zero, Option.some.injEq] at ha
      subst ha
      exact ⟨_, by simp, hr⟩
    | succ n =>
      simp only [List.getElem?_cons_succ] at ha ⊢
      exact ih n a ha

theorem zip_find?_of_nodup :
    ∀ (ks : List ℚ) (ys : List (Option ℚ)) (i : Nat) (k : ℚ) (y : Option ℚ),
      ks.Nodup → ks[i]? = some k → ys[i]? = some y →
      (ks.zip ys).find? (fun kv => kv.1 == k) = some (k, y) := by
  intro ks
  induction ks with
  | nil => intro ys i k y _ hk _; simp at hk
  | cons a kt ih =>
    intro ys i k y hnd hk hy
    cases ys with
    | nil => simp at hy
    | cons b yt =>
      cases i with
      | zero =>
        simp only [List.getElem?_cons_zero, Option.some.injEq] at hk hy
        subst hk; subst hy
        rw [List.zip_cons_cons]
        exact List.find?_cons_of_pos _ (by simp)
      | succ n =>
        simp only [List.getElem?_cons_succ] at hk hy
        have hkmem : k ∈ kt := List.getElem?_mem hk
        rw [List.nodup_cons] at hnd
        rw [List.zip_cons_cons, List.find?_cons_of_neg]
        · exact ih yt n k y hnd.2 hk hy
        · simp only [beq_iff_eq]
          intro h; rw [h] at hnd; exact hnd.1 hkmem

theorem find?_of_names_nodup :
    ∀ (l : List (String × List (Option ℚ))) (p : String) (cs : List (Option ℚ)),
      (l.map Prod.fst).Nodup → (p, cs) ∈ l →
      l.find? (fun c => c.1 == p) = some (p, cs) := by
  intro l
  induction l with
  | nil => intro p cs _ h; simp at h
  | cons a lt ih =>
    intro p cs hnd hm
    rw [List.map_cons, List.nodup_cons] at hnd
    rcases List.mem_cons.mp hm with h | h
    · rw [← h]
      exact List.find?_cons_of_pos _ (by simp)
    · have hfst : p ∈ lt.map Prod.fst := by
        have := List.mem_map_of_mem Prod.fst h
        simpa using this
      rw [List.find?_cons_of_neg]
      · exact ih p cs hnd.2 h
      · simp only [beq_iff_eq]
        intro he; rw [he] at hnd; exact hnd.1 hfst

theorem pipeline_keys (t : Table) :
    (fillTable (dropAllNoneCols t)).keys = t.keys := rfl

theorem pipeline_noMissing (t : Table) :
    (fillTable (dropAllNoneCols t)).noMissing = true := by
  simp only [Table.noMissing, fillTable, dropAllNoneCols, List.all_eq_true]
  intro c hc
  rw [List.mem_map] at hc
  obtain ⟨d, hd, rfl⟩ := hc
  rw [List.mem_filter] at hd
  intro x hx
  refine fill_allSome d.2 ?_ x hx
  simpa [List.any_eq_true] using hd.2

theorem load_data_long_eq (f : Csv) (h1 : isLong (strippedDf f) = true)
    (hok : longGuardOk (strippedDf f) = true) :
    load_data f = LoadResult.table (loadLong (strippedDf f)) := by
  simp [load_data, h1, hok]

theorem load_data_wide_eq (f : Csv) (h1 : isLong (strippedDf f) = false)
    (h2 : isWide (strippedDf f) = true) (hok : wideGuardOk (strippedDf f) = true) :
    load_data f = LoadResult.table (loadWide (strippedDf f)) := by
  simp [load_data, h1, h2, hok]

theorem load_data_table_cases (f : Csv) (t : Table)
    (ht : load_data f = LoadResult.table t) :
    t = loadLong (strippedDf f) ∨ t = loadWide (strippedDf f) := by
  unfold load_data at ht
  cases h1 : isLong (strippedDf f) with
  | true =>
    cases h2 : longGuardOk (strippedDf f) with
    | true =>
      simp only [h1, h2, if_true] at ht
      injection ht with h
      exact Or.inl h.symm
    | false => simp [h1, h2] at ht
  | false =>
    cases h2 : isWide (strippedDf f) with
    | true =>
      cases h3 : wideGuardOk (strippedDf f) with
      | true =>
        simp only [h1, h2, h3, if_true, if_false, Bool.false_eq_true] at ht
        injection ht with h
        exact Or.inr h.symm
      | false => simp [h1, h2, h3] at ht
    | false => simp [h1, h2] at ht

theorem longKeys_sorted (trs : List LongRow) :
    List.Sorted (fun a b => a ≤ b) (longKeys trs) :=
  List.sorted_insertionSort _ _

theorem longKeys_nodup (trs : List LongRow) : (longKeys trs).Nodup :=
  (List.perm_insertionSort _ _).nodup_iff.mpr (List.nodup_dedup _)

theorem wideKeys_sorted (df : Df) :
    List.Sorted (fun a b => a ≤ b) (wideKeys df) :=
  List.sorted_insertionSort _ _

theorem wideKeys_nodup (df : Df) : (wideKeys df).Nodup :=
  (List.perm_insertionSort _ _).nodup_iff.mpr (List.nodup_dedup _)

theorem foldl_min_le_init (l : List ℚ) : ∀ a : ℚ, List.foldl min a l ≤ a := by
  induction l with
  | nil => intro a; simp
  | cons x xs ih => intro a; exact le_trans (ih (min a x)) (min_le_left a x)

theorem foldl_min_le_mem (l : List ℚ) : ∀ (a x : ℚ), x ∈ l → List.foldl min a l ≤ x := by
  induction l with
  | nil => intro a x hx; simp at hx
  | cons y ys ih =>
    intro a x hx
    rcases List.mem_cons.mp hx with h | h
    · subst h
      exact le_trans (foldl_min_le_init ys (min a x)) (min_le_right a x)
    · exact ih (min a y) x h

theorem le_foldl_max_init (l : List ℚ) : ∀ a : ℚ, a ≤ List.foldl max a l := by
  induction l with
  | nil => intro a; simp
  | cons x xs ih => intro a; exact le_trans (le_max_left a x) (ih (max a x))

theorem le_foldl_max_mem (l : List ℚ) : ∀ (a x : ℚ), x ∈ l → x ≤ List.foldl max a l := by
  induction l with
  | nil => intro a x hx; simp at hx
  | cons y ys ih =>
    intro a x hx
    rcases List.mem_cons.mp hx with h | h
    · subst h
      exact le_trans (le_max_right a x) (le_foldl_max_init ys (max a x))
    · exact ih (max a y) x h

theorem wideKeys_mem_iff (df : Df) (k : ℚ) :
    k ∈ wideKeys df ↔
      ∃ r ∈ df.rows, cellAt df "time(ms)" r = RawCell.num (1000 * k) := by
  rw [wideKeys, List.mem_insertionSort, List.mem_dedup, wideKeySource,
    List.mem_filterMap]
  constructor
  · rintro ⟨r, hr, hsec⟩
    refine ⟨r, hr, ?_⟩
    cases hc : cellAt df "time(ms)" r with
    | num q =>
      rw [hc] at hsec
      simp only [wideSec, Option.some.injEq] at hsec
      have hq : q = 1000 * k := by
        rw [div_eq_iff (by norm_num : (1000:ℚ) ≠ 0)] at hsec
        rw [hsec]; ring
      rw [hq]
    | empty => rw [hc] at hsec; simp [wideSec] at hsec
    | text s => rw [hc] at hsec; simp [wideSec] at hsec
  · rintro ⟨r, hr, hc⟩
    refine ⟨r, hr, ?_⟩
    rw [hc]
    simp only [wideSec, Option.some.injEq]
    rw [mul_comm]
    exact mul_div_cancel_right₀ k (by norm_num : (1000:ℚ) ≠ 0)

/-- C1: for every recognized input, of either format, the canonical table
returned by `load_data` has its row keys in non-decreasing order and no
missing cell in any column (a column that was entirely missing before the fill
was dropped, so the fill leaves nothing missing). -/
theorem c1_canonical_sorted_and_no_missing (f : Csv) (t : Table)
    (ht : load_data f = LoadResult.table t) :
    List.Sorted (fun a b => a ≤ b) t.keys ∧ t.noMissing = true := by
  rcases load_data_table_cases f t ht with rfl | rfl
  · exact ⟨longKeys_sorted _, pipeline_noMissing _⟩
  · exact ⟨wideKeys_sorted _, pipeline_noMissing _⟩

/-- Witness for C1 at the concrete wide-format example. -/
theorem c1_witness :
    List.Sorted (fun a b => a ≤ b) exampleWideTable.keys ∧
      exampleWideTable.noMissing = true :=
  c1_canonical_sorted_and_no_missing exampleWide exampleWideTable
    (by with_unfolding_all decide)

/-- C2 (amended): `load_data` returns a table or the unrecognized result,
never a raised exception, provided the key columns carry no non-numeric text
token: SECONDS and VALUE in long format, `time(ms)` in wide format.  (The
unamended claim is false: see the counterexample, where a text token in
`time(ms)` makes `df['time(ms)'] / 1000.0` raise a TypeError.) -/
theorem c2_no_error_on_numeric_key_columns (f : Csv)
    (hlong : isLong (strippedDf f) = true → longGuardOk (strippedDf f) = true)
    (hwide : isLong (strippedDf f) = false → isWide (strippedDf f) = true →
      wideGuardOk (strippedDf f) = true) :
    load_data f ≠ LoadResult.error := by
  unfold load_data
  cases h1 : isLong (strippedDf f) with
  | true => simp [hlong h1]
  | false =>
    cases h2 : isWide (strippedDf f) with
    | true => simp [hwide h1 h2]
    | false => simp [h2]

/-- Counterexample for C2 as stated: a wide-format upload whose `time(ms)`
column holds the non-numeric placeholder makes the load raise. -/
theorem c2_counterexample : load_data exampleBadWide = LoadResult.error := by
  with_unfolding_all decide

/-- Witness for C2 at the concrete wide-format example. -/
theorem c2_witness : load_data exampleWide ≠ LoadResult.error :=
  c2_no_error_on_numeric_key_columns exampleWide
    (by with_unfolding_all decide) (by with_unfolding_all decide)

theorem header_le_expectedWidth (f : Csv) : f.header.length ≤ expectedWidth f := by
  rw [expectedWidth]
  cases f.body with
  | nil => exact le_rfl
  | cons r body => exact le_max_left _ _

theorem filterMap_pad_length (W k : Nat) (l : List (List RawCell)) :
    (l.filterMap fun r =>
        if W < r.length then none else some ((padRow W r).drop k)).length
      = (l.filter fun r => r.length ≤ W).length := by
  induction l with
  | nil => simp
  | cons r body ih =>
    by_cases h : W < r.length
    · simp [List.filterMap_cons, List.filter_cons, h, not_le.mpr h, ih]
    · simp [List.filterMap_cons, List.filter_cons, h, Nat.le_of_not_lt h, ih]

/-- C6 (amended): a data line wider than the expected width — the header's
width, or the first data line's width when that one is larger — is skipped
and contributes nothing (the retained rows are exactly the lines at most that
wide, so their count matches); a narrower line is retained, right-padded with
missing cells, not skipped; the first data line is always retained (an
over-long first line feeds pandas' index-column inference instead of being a
bad line, its excess leading fields consumed as the unused read index); every
retained row contributes exactly the header-width cells; the load is never
aborted.  (The unamended claim — every line with the wrong field count is
skipped — is false: see the counterexample, with a too-short line and with an
over-long first line.) -/
theorem c6_bad_line_handling (f : Csv) :
    ((readCsv f).rows.length
        = (f.body.filter fun r => r.length ≤ expectedWidth f).length) ∧
    (∀ r ∈ f.body, r.length ≤ expectedWidth f →
        (padRow (expectedWidth f) r).drop (expectedWidth f - f.header.length)
          ∈ (readCsv f).rows) ∧
    (∀ r, f.body.head? = some r →
        (padRow (expectedWidth f) r).drop (expectedWidth f - f.header.length)
          ∈ (readCsv f).rows) ∧
    (∀ r ∈ (readCsv f).rows, r.length = f.header.length) := by
  have hretain : ∀ r ∈ f.body, r.length ≤ expectedWidth f →
      (padRow (expectedWidth f) r).drop (expectedWidth f - f.header.length)
        ∈ (readCsv f).rows := by
    intro r hr hle
    simp only [readCsv]
    rw [List.mem_filterMap]
    exact ⟨r, hr, if_neg (Nat.not_lt.mpr hle)⟩
  refine ⟨?_, hretain, ?_, ?_⟩
  · simp only [readCsv]
    exact filterMap_pad_length _ _ _
  · intro r hr
    cases hb : f.body with
    | nil => rw [hb] at hr; cases hr
    | cons a body =>
      rw [hb] at hr
      injection hr with hr
      rw [← hr]
      refine hretain a (by rw [hb]; exact List.mem_cons_self a body) ?_
      rw [expectedWidth, hb]
      exact le_max_right _ _
  · intro r hr
    simp only [readCsv] at hr
    rw [List.mem_filterMap] at hr
    obtain ⟨r₀, _, heq⟩ := hr
    by_cases h : expectedWidth f < r₀.length
    · rw [if_pos h] at heq; cases heq
    · rw [if_neg h] at heq
      injection heq with heq
      rw [← heq]
      have hW := header_le_expectedWidth f
      simp only [List.length_drop, padRow, List.length_append, List.length_replicate]
      omega

/-- Counterexample for C6 as stated, at two concrete inputs.  First: the only
data line of this file has one field where the header has two, yet it is
retained (padded with a missing cell) and even contributes the row key 1 to
the canonical table, rather than being skipped.  Second: the only data line
of the other file has three fields where the header has two, yet it is
retained (its leading field consumed as the read index) and contributes the
row key 1 with cell A = 7, rather than being skipped. -/
theorem c6_counterexample :
    ((readCsv exampleShortRow).rows ≠ [] ∧
      (readCsv exampleShortRow).rows = [[RawCell.num 1000, RawCell.empty]] ∧
      (load_data exampleShortRow).keysOf = [1]) ∧
    ((readCsv exampleLongRow).rows ≠ [] ∧
      (readCsv exampleLongRow).rows = [[RawCell.num 1000, RawCell.num 7]] ∧
      (load_data exampleLongRow).keysOf = [1] ∧
      (load_data exampleLongRow).cell? 1 "A" = some 7) := by
  with_unfolding_all decide

/-- Witness for C6 at the concrete short-line example. -/
theorem c6_witness :
    (padRow (expectedWidth exampleShortRow) [RawCell.num 1000]).drop
        (expectedWidth exampleShortRow - exampleShortRow.header.length)
      ∈ (readCsv exampleShortRow).rows :=
  (c6_bad_line_handling exampleShortRow).2.1 [RawCell.num 1000]
    (by decide) (by decide)

/-- C7: when the normalize flag rescales a selected column whose minimum
equals its maximum, every cell maps to zero, and the denominator used is 1,
never zero. -/
theorem c7_flat_series_all_zero (x : ℚ) (rest : List ℚ)
    (hflat : List.foldl min x rest = List.foldl max x rest) :
    normalizeCol (x :: rest) = (x :: rest).map (fun _ => (0:ℚ)) ∧
      (if List.foldl max x rest - List.foldl min x rest = 0 then (1:ℚ)
       else List.foldl max x rest - List.foldl min x rest) ≠ 0 := by
  have hall : ∀ v ∈ x :: rest, v = List.foldl min x rest := by
    intro v hv
    have h1 : List.foldl min x rest ≤ v := by
      rcases List.mem_cons.mp hv with h | h
      · subst h; exact foldl_min_le_init rest v
      · exact foldl_min_le_mem rest x v h
    have h2 : v ≤ List.foldl max x rest := by
      rcases List.mem_cons.mp hv with h | h
      · subst h; exact le_foldl_max_init rest v
      · exact le_foldl_max_mem rest x v h
    rw [← hflat] at h2
    exact le_antisymm h2 h1
  constructor
  · simp only [normalizeCol]
    refine List.map_congr_left ?_
    intro v hv
    rw [hall v hv, sub_self, zero_div]
  · rw [← hflat, sub_self, if_pos rfl]
    exact one_ne_zero

/-- Witness for C7 at a concrete flat column. -/
theorem c7_witness : normalizeCol [(5:ℚ), 5, 5] = [(0:ℚ), 0, 0] := by
  have h := c7_flat_series_all_zero 5 [5, 5] (by with_unfolding_all decide)
  rw [h.1]
  rfl

/-- C8: an input matching neither recognized shape yields the distinguished
unrecognized result; the app then renders the error message naming both
accepted shapes, and the sensor-selection state from any previous successful
upload is left untouched. -/
theorem c8_unrecognized_renders_error_keeps_state (f : Csv)
    (prior : List (String × Bool))
    (h1 : isLong (strippedDf f) = false) (h2 : isWide (strippedDf f) = false) :
    load_data f = LoadResult.unrecognized ∧
    appUpload prior (load_data f) = (prior, some formatErrorMsg) ∧
    List.IsInfix "(SECONDS; PID; VALUE)".data formatErrorMsg.data ∧
    List.IsInfix "(time(ms); ...sensors)".data formatErrorMsg.data := by
  have hu : load_data f = LoadResult.unrecognized := by
    simp [load_data, h1, h2]
  refine ⟨hu, ?_, by decide, by decide⟩
  rw [hu]
  rfl

/-- Witness for C8 at a concrete unrecognized file with prior state. -/
theorem c8_witness :
    load_data exampleUnrecognized = LoadResult.unrecognized ∧
    appUpload [("RPM", true)] (load_data exampleUnrecognized)
      = ([("RPM", true)], some formatErrorMsg) := by
  have h := c8_unrecognized_renders_error_keeps_state exampleUnrecognized
    [("RPM", true)] (by decide) (by decide)
  exact ⟨h.1, h.2.1⟩

/-- C9: when the long-format marker columns and the wide-format marker column
are all present, detection treats the file as long format (the long check
comes first). -/
theorem c9_long_format_takes_precedence (f : Csv)
    (h1 : isLong (strippedDf f) = true)
    (_h2 : isWide (strippedDf f) = true)
    (hok : longGuardOk (strippedDf f) = true) :
    load_data f = LoadResult.table (loadLong (strippedDf f)) :=
  load_data_long_eq f h1 hok

/-- Witness for C9 at a concrete file carrying both marker sets. -/
theorem c9_witness :
    load_data exampleBothMarkers
      = LoadResult.table (loadLong (strippedDf exampleBothMarkers)) :=
  c9_long_format_takes_precedence exampleBothMarkers
    (by decide) (by decide) (by decide)

theorem loadLong_cols_names_nodup (df : Df) :
    ((loadLong df).cols.map Prod.fst).Nodup := by
  have h1 : (loadLong df).cols.map Prod.fst
      = ((longTablePre (longRows df)).cols.filter
          fun c => c.2.any fun x => x.isSome).map Prod.fst := by
    simp only [loadLong, fillTable, dropAllNoneCols, List.map_map]
    exact List.map_congr_left fun a _ => rfl
  rw [h1]
  refine List.Nodup.sublist ((List.filter_sublist _).map Prod.fst) ?_
  simp only [longTablePre, List.map_map]
  have h2 : ((longCols (longRows df)).map
      ((Prod.fst : String × List (Option ℚ) → String) ∘
        fun p => (p, (longKeys (longRows df)).map fun k => pivotCell (longRows df) k p)))
      = longCols (longRows df) := by
    rw [show ((Prod.fst : String × List (Option ℚ) → String) ∘
      fun p => (p, (longKeys (longRows df)).map fun k => pivotCell (longRows df) k p))
      = id from rfl]
    exact List.map_id _
  rw [h2]
  exact List.nodup_dedup _

theorem loadLong_cell (df : Df) (sec : ℚ) (pid : String)
    (hvs : dupValues (longRows df) sec pid ≠ []) :
    (loadLong df).cell sec pid
      = some ((dupValues (longRows df) sec pid).sum
          / ((dupValues (longRows df) sec pid).length : ℚ)) := by
  obtain ⟨v, hv⟩ := List.exists_mem_of_ne_nil _ hvs
  rw [dupValues, List.mem_filterMap] at hv
  obtain ⟨tr, htr, hsome⟩ := hv
  by_cases hcond : tr.sec = some sec ∧ tr.pid = some pid
  swap
  · rw [if_neg hcond] at hsome; cases hsome
  rw [if_pos hcond] at hsome
  obtain ⟨hsec, hpid⟩ := hcond
  have hsecmem : sec ∈ longKeys (longRows df) := by
    rw [longKeys, List.mem_insertionSort, List.mem_dedup, keySource, List.mem_filterMap]
    refine ⟨tr, htr, ?_⟩
    rw [if_pos ⟨by rw [hpid]; rfl, by rw [hsome]; rfl⟩, hsec]
  have hpidmem : pid ∈ longCols (longRows df) := by
    rw [longCols, List.mem_dedup, colSource, List.mem_filterMap]
    refine ⟨tr, htr, ?_⟩
    rw [if_pos ⟨by rw [hsec]; rfl, by rw [hsome]; rfl⟩, hpid]
  have hpc : pivotCell (longRows df) sec pid
      = some ((dupValues (longRows df) sec pid).sum
          / ((dupValues (longRows df) sec pid).length : ℚ)) := by
    rw [pivotCell, meanOpt, if_neg (by simpa [List.isEmpty_iff] using hvs)]
  have hkeep : (((longKeys (longRows df)).map
      fun k => pivotCell (longRows df) k pid).any fun x => x.isSome) = true := by
    rw [List.any_eq_true]
    exact ⟨pivotCell (longRows df) sec pid, List.mem_map_of_mem _ hsecmem,
      by rw [hpc]; rfl⟩
  have hmemf : (pid, (longKeys (longRows df)).map fun k => pivotCell (longRows df) k pid)
      ∈ ((longTablePre (longRows df)).cols.filter fun c => c.2.any fun x => x.isSome) := by
    rw [List.mem_filter]
    constructor
    · simp only [longTablePre]
      exact List.mem_map_of_mem _ hpidmem
    · exact hkeep
  have hmemfinal : (pid, bfillCol (ffillCol ((longKeys (longRows df)).map
      fun k => pivotCell (longRows df) k pid))) ∈ (loadLong df).cols := by
    simp only [loadLong, fillTable, dropAllNoneCols]
    exact List.mem_map_of_mem _ hmemf
  have hfind1 : (loadLong df).cols.find? (fun c => c.1 == pid)
      = some (pid, bfillCol (ffillCol ((longKeys (longRows df)).map
          fun k => pivotCell (longRows df) k pid))) :=
    find?_of_names_nodup _ pid _ (loadLong_cols_names_nodup df) hmemfinal
  obtain ⟨i, hi⟩ := List.mem_iff_getElem?.mp hsecmem
  have hci : ((longKeys (longRows df)).map fun k => pivotCell (longRows df) k pid)[i]?
      = some (pivotCell (longRows df) sec pid) := by
    rw [List.getElem?_map, hi]
    rfl
  obtain ⟨b, hbi, hrb⟩ := forall₂_refines_getElem? (fill_refines _) i _ hci
  have hb := hrb _ hpc
  have hfind2 : ((loadLong df).keys.zip (bfillCol (ffillCol ((longKeys (longRows df)).map
      fun k => pivotCell (longRows df) k pid)))).find? (fun kv => kv.1 == sec)
      = some (sec, b) :=
    zip_find?_of_nodup _ _ i sec b (longKeys_nodup _) hi hbi
  simp only [Table.cell]
  rw [hfind1]
  simp only []
  rw [hfind2]
  exact hb

/-- C3: for a long-format input, the canonical cell at a given SECONDS row
and PID column is the arithmetic mean of the VALUEs of all input rows sharing
that (SECONDS, PID) pair; in particular the spec's example with duplicate
(0, RPM) rows valued 800 and 820 yields 810 at seconds 0 and 900 at
seconds 1. -/
theorem c3_duplicate_pairs_averaged :
    (∀ (f : Csv) (t : Table) (sec : ℚ) (pid : String),
        isLong (strippedDf f) = true → longGuardOk (strippedDf f) = true →
        load_data f = LoadResult.table t →
        dupValues (longRows (strippedDf f)) sec pid ≠ [] →
        t.cell sec pid = some ((dupValues (longRows (strippedDf f)) sec pid).sum
          / ((dupValues (longRows (strippedDf f)) sec pid).length : ℚ))) ∧
    (load_data exampleLong).cell? 0 "RPM" = some 810 ∧
    (load_data exampleLong).cell? 1 "RPM" = some 900 := by
  refine ⟨?_, by with_unfolding_all decide, by with_unfolding_all decide⟩
  intro f t sec pid h1 hok ht hvs
  rw [load_data_long_eq f h1 hok] at ht
  injection ht with h
  rw [← h]
  exact loadLong_cell (strippedDf f) sec pid hvs

/-- Witness for C3 at the spec's long-format example: the cell at (0, RPM) is
the mean of the two duplicate VALUEs. -/
theorem c3_witness :
    (loadLong (strippedDf exampleLong)).cell 0 "RPM"
      = some ((dupValues (longRows (strippedDf exampleLong)) 0 "RPM").sum
          / ((dupValues (longRows (strippedDf exampleLong)) 0 "RPM").length : ℚ)) :=
  c3_duplicate_pairs_averaged.1 exampleLong (loadLong (strippedDf exampleLong)) 0 "RPM"
    (by decide) (by decide)
    (load_data_long_eq exampleLong (by decide) (by decide))
    (by with_unfolding_all decide)

/-- C4: in wide format, a sensor column whose cells are all non-numeric text
(the placeholder or any other unparseable token) is absent from the canonical
table — dropped, not kept with missing values and not an error. -/
theorem c4_all_text_column_dropped (f : Csv) (t : Table) (name : String)
    (h1 : isLong (strippedDf f) = false) (h2 : isWide (strippedDf f) = true)
    (hok : wideGuardOk (strippedDf f) = true)
    (ht : load_data f = LoadResult.table t)
    (hcells : ∀ c ∈ (strippedDf f).col name, cellIsText c = true) :
    t.hasCol name = false := by
  rw [load_data_wide_eq f h1 h2 hok] at ht
  injection ht with h
  rw [← h]
  have hcell : ∀ k, wideCell (strippedDf f) name k = none := by
    intro k
    rw [wideCell]
    have hnil : ((strippedDf f).rows.filterMap fun r =>
        if wideSec (cellAt (strippedDf f) "time(ms)" r) = some k
        then toNumeric (cellAt (strippedDf f) name r) else none) = [] := by
      rw [List.filterMap_eq_nil_iff]
      intro r hr
      by_cases hkm : wideSec (cellAt (strippedDf f) "time(ms)" r) = some k
      · rw [if_pos hkm]
        have hmem : cellAt (strippedDf f) name r ∈ (strippedDf f).col name :=
          List.mem_map_of_mem _ hr
        have htext := hcells _ hmem
        cases hc : cellAt (strippedDf f) name r with
        | text s => rfl
        | num q => rw [hc] at htext; cases htext
        | empty => rfl
      · rw [if_neg hkm]
    rw [hnil]
    rfl
  rw [Table.hasCol, List.any_eq_false]
  intro e he
  simp only [loadWide, fillTable, dropAllNoneCols, wideTablePre] at he
  rw [List.mem_map] at he
  obtain ⟨d, hd, rfl⟩ := he
  rw [List.mem_filter] at hd
  obtain ⟨hdm, hkeep⟩ := hd
  rw [List.mem_map] at hdm
  obtain ⟨c, hcm, rfl⟩ := hdm
  simp only [beq_iff_eq]
  intro hcn
  rw [hcn] at hkeep
  rw [List.any_eq_true] at hkeep
  obtain ⟨x, hx, hxs⟩ := hkeep
  rw [List.mem_map] at hx
  obtain ⟨k, _, rfl⟩ := hx
  rw [hcell k] at hxs
  cases hxs

/-- Witness for C4 at a concrete wide file whose Status column holds only
text tokens. -/
theorem c4_witness :
    (loadWide (strippedDf exampleTextCol)).hasCol "Status" = false :=
  c4_all_text_column_dropped exampleTextCol (loadWide (strippedDf exampleTextCol))
    "Status" (by decide) (by decide) (by decide)
    (load_data_wide_eq exampleTextCol (by decide) (by decide) (by decide))
    (by decide)

/-- C5: in wide format the row key is time(ms) divided by 1000 — a value k is
a row key exactly when some row's time(ms) field holds the number 1000·k —
and on the spec's example the "-" cell of Speed becomes missing and is filled
backward, so both rows 1.0 and 2.0 carry Speed = 45. -/
theorem c5_wide_keys_and_backfill :
    (∀ (f : Csv) (t : Table) (k : ℚ),
        isLong (strippedDf f) = false → isWide (strippedDf f) = true →
        wideGuardOk (strippedDf f) = true → load_data f = LoadResult.table t →
        (k ∈ t.keys ↔ ∃ r ∈ (strippedDf f).rows,
          cellAt (strippedDf f) "time(ms)" r = RawCell.num (1000 * k))) ∧
    (load_data exampleWide).cell? 1 "Speed" = some 45 ∧
    (load_data exampleWide).cell? 2 "Speed" = some 45 := by
  refine ⟨?_, by with_unfolding_all decide, by with_unfolding_all decide⟩
  intro f t k h1 h2 hok ht
  rw [load_data_wide_eq f h1 h2 hok] at ht
  injection ht with h
  rw [← h]
  exact wideKeys_mem_iff (strippedDf f) k

/-- Witness for C5: on the wide example, 1 is a row key because some row's
time(ms) field is 1000. -/
theorem c5_witness :
    ∃ r ∈ (strippedDf exampleWide).rows,
      cellAt (strippedDf exampleWide) "time(ms)" r = RawCell.num (1000 * 1) :=
  (c5_wide_keys_and_backfill.1 exampleWide (loadWide (strippedDf exampleWide)) 1
    (by decide) (by decide) (by decide)
    (load_data_wide_eq exampleWide (by decide) (by decide) (by decide))).mp
    (by with_unfolding_all decide)

/-- C10: in wide format, a row whose time(ms) field is empty is silently
excluded — every key of the canonical table stems from a row whose time(ms)
field holds a number — and on the concrete example the keyless row's sensor
value 5 leaves no trace: the table has the single key 2 with cell value 7. -/
theorem c10_rows_without_time_key_excluded :
    (∀ (f : Csv) (t : Table),
        isLong (strippedDf f) = false → isWide (strippedDf f) = true →
        wideGuardOk (strippedDf f) = true → load_data f = LoadResult.table t →
        ∀ k ∈ t.keys, ∃ r ∈ (strippedDf f).rows,
          cellAt (strippedDf f) "time(ms)" r = RawCell.num (1000 * k)) ∧
    (load_data exampleNoKey).keysOf = [2] ∧
    (load_data exampleNoKey).cell? 2 "X" = some 7 := by
  refine ⟨?_, by with_unfolding_all decide, by with_unfolding_all decide⟩
  intro f t h1 h2 hok ht k hk
  rw [load_data_wide_eq f h1 h2 hok] at ht
  injection ht with h
  rw [← h] at hk
  exact (wideKeys_mem_iff (strippedDf f) k).mp hk

/-- Witness for C10: on the concrete example, the key 2 of the table stems
from the complete row with time(ms) = 2000. -/
theorem c10_witness :
    ∃ r ∈ (strippedDf exampleNoKey).rows,
      cellAt (strippedDf exampleNoKey) "time(ms)" r = RawCell.num (1000 * 2) :=
  c10_rows_without_time_key_excluded.1 exampleNoKey
    (loadWide (strippedDf exampleNoKey)) (by decide) (by decide) (by decide)
    (load_data_wide_eq exampleNoKey (by decide) (by decide) (by decide))
    2 (by with_unfolding_all decide)
